import Mathlib

/-!
Shallow embedding of the multi-index fan-out search aggregator and the
OData filter-string builder from `azure_search_query_1.py`
(class `AzureSearchQuery`: methods `search_multiple_states` and
`_build_filter_string`, plus the filter defaulting on line 119 of `search`).

Modelling decisions:
* The Single-Index Search Client (`self.search`) is an external collaborator
  (it wraps the Azure SDK); it is modelled as a parameter
  `searchFn : String → Except String SearchResponse` mapping a state code to
  either a decorated response or an error description (`str(e)` of the raised
  exception).  The query, per-target cap and filters are fixed across the
  fan-out loop, so the dependence is on the state code alone.
* Relevance scores are Python floats used only as sort keys; they are
  modelled as rationals.
* `all_results.sort(key=lambda x: x['score'], reverse=True)` is Python's
  stable sort, descending by score.  A stable sort by a key is extensionally
  unique, so it is embedded as the structural stable insertion sort
  `sortByScoreDesc` below (earlier element first on equal scores).
* The Python body of `search_multiple_states` cannot raise: every exception
  from a per-target search is caught by the inner `try/except`, and the
  remaining statements (list extend/append, sort, slicing, dict building)
  are total on the values that reach them.  The embedding is therefore a
  total function into `MultiStateResult`.
-/

namespace Guru

/-- One entry of the `states` configuration mapping (`search_config.json`):
state code maps to a record with `name`, `index` and `container`. -/
structure StateInfo where
  name : String
  index : String
  container : String
  deriving DecidableEq

/-- The configuration state of `AzureSearchQuery` that the aggregator reads:
the ordered `states` mapping and the default result cap `top_k`. -/
structure Config where
  states : List (String × StateInfo)
  top_k : Nat
  deriving DecidableEq

/-- One retrieved document as built by `search` (lines 154-178): opaque
attributes collapsed into `payload`, plus the relevance score
(`@search.score`) which is the only field the aggregator inspects. -/
structure Doc where
  payload : String
  score : ℚ
  deriving DecidableEq

/-- The response dictionary returned by the Single-Index Search Client
(`search`, lines 180-187), restricted to the fields `search_multiple_states`
reads: `state_name`, `results`, `results_count`, `total_count`.
`search` itself always sets `results_count = len(results)` (line 185), but
the aggregator reads the field, so it is carried separately. -/
structure SearchResponse where
  state_name : String
  results : List Doc
  results_count : Nat
  total_count : Option Int
  deriving DecidableEq

/-- One per-target outcome appended to `state_summaries`
(lines 263-268 on success, 271-274 on failure). -/
inductive SearchSummary where
  | success (state : String) (state_name : String)
      (results_count : Nat) (total_count : Option Int)
  | failure (state : String) (error : String)
  deriving DecidableEq

/-- The state code an outcome is for (the `'state'` key both dict shapes carry). -/
def SearchSummary.stateOf : SearchSummary → String
  | .success s _ _ _ => s
  | .failure s _ => s

/-- The dictionary returned by `search_multiple_states` (lines 282-289). -/
structure MultiStateResult where
  query : String
  states_searched : List String
  state_summaries : List SearchSummary
  total_results : Nat
  top_results : List Doc
  all_results : List Doc
  deriving DecidableEq

/-- Stable descending insertion: `d` is placed before the first element whose
score is not strictly greater, so on equal scores the earlier-appended
document stays first — the behaviour of Python's stable `list.sort` with
`reverse=True`. -/
def insertByScore (d : Doc) : List Doc → List Doc
  | [] => [d]
  | x :: xs => if d.score < x.score then x :: insertByScore d xs else d :: x :: xs

/-- Embedding of `all_results.sort(key=lambda x: x['score'], reverse=True)`
(line 277): the stable sort by score descending. -/
def sortByScoreDesc : List Doc → List Doc
  | [] => []
  | x :: xs => insertByScore x (sortByScoreDesc xs)

/-- Lines 251-252: `if not state_codes: state_codes = list(self.states.keys())`
(an empty or absent list is falsy and is replaced by the configured universe). -/
def effectiveTargets (cfg : Config) (state_codes : List String) : List String :=
  if state_codes.isEmpty then cfg.states.map Prod.fst else state_codes

/-- Line 280: `top_k = top if top else self.top_k` (`None` and `0` are falsy). -/
def effectiveTopK (cfg : Config) (top : Option Nat) : Nat :=
  match top with
  | some t => if t = 0 then cfg.top_k else t
  | none => cfg.top_k

/-- One iteration of the fan-out loop (lines 259-274): on success extend
`all_results` with the returned documents and append a success summary; on
failure append a failure summary carrying `str(e)` and continue. -/
def foldStep (searchFn : String → Except String SearchResponse)
    (acc : List Doc × List SearchSummary) (state_code : String) :
    List Doc × List SearchSummary :=
  match searchFn state_code with
  | .ok r =>
      (acc.1 ++ r.results,
       acc.2 ++ [.success state_code r.state_name r.results_count r.total_count])
  | .error e => (acc.1, acc.2 ++ [.failure state_code e])

/-- Embedding of `search_multiple_states` (lines 235-293). -/
def search_multiple_states (cfg : Config)
    (searchFn : String → Except String SearchResponse)
    (query : String) (state_codes : List String) (top : Option Nat) :
    MultiStateResult :=
  let codes := effectiveTargets cfg state_codes
  let acc := codes.foldl (foldStep searchFn) ([], [])
  let sorted := sortByScoreDesc acc.1
  let top_k := effectiveTopK cfg top
  { query := query
    states_searched := codes
    state_summaries := acc.2
    total_results := sorted.length
    top_results := sorted.take top_k
    all_results := sorted }

/-- A filter value: either a scalar (rendered by `str`) or a range-constraint
dictionary with optional `gte`/`lte`/`gt`/`lt` bounds (rendered by `str`). -/
inductive FilterValue where
  | scalar (v : String)
  | range (gte lte gt lt : Option String)
  deriving DecidableEq

/-- The body of the `_build_filter_string` loop for one entry
(lines 218-231): for a dict value, append one clause per present bound in
the fixed order ge, le, gt, lt; for a scalar, append a quoted equality
clause. -/
def filterStep (acc : List String) (fv : String × FilterValue) : List String :=
  match fv.2 with
  | .range gte lte gt lt =>
      let acc := match gte with
        | some v => acc ++ [fv.1 ++ " ge " ++ v]
        | none => acc
      let acc := match lte with
        | some v => acc ++ [fv.1 ++ " le " ++ v]
        | none => acc
      let acc := match gt with
        | some v => acc ++ [fv.1 ++ " gt " ++ v]
        | none => acc
      match lt with
      | some v => acc ++ [fv.1 ++ " lt " ++ v]
      | none => acc
  | .scalar v => acc ++ [fv.1 ++ " eq '" ++ v ++ "'"]

/-- The `filter_parts` accumulator of `_build_filter_string`
(lines 216-231). -/
def build_filter_parts (filters : List (String × FilterValue)) : List String :=
  filters.foldl filterStep []

/-- Embedding of `_build_filter_string` (lines 205-233):
`' and '.join(filter_parts)`. -/
def build_filter_string (filters : List (String × FilterValue)) : String :=
  String.intercalate " and " (build_filter_parts filters)

/-- Line 119 of `search`:
`filter_str = self._build_filter_string(filters) if filters else None` —
`None` and the empty dict are falsy, so no filter string is built for them. -/
def filter_str_of (filters : Option (List (String × FilterValue))) :
    Option String :=
  match filters with
  | none => none
  | some [] => none
  | some fs => some (build_filter_string fs)

/-- Documents a target contributes to the accumulator: its results on
success, nothing on failure. -/
def successDocs (searchFn : String → Except String SearchResponse)
    (state_code : String) : List Doc :=
  match searchFn state_code with
  | .ok r => r.results
  | .error _ => []

/-- The summary recorded for one target. -/
def outcomeOf (searchFn : String → Except String SearchResponse)
    (state_code : String) : SearchSummary :=
  match searchFn state_code with
  | .ok r => .success state_code r.state_name r.results_count r.total_count
  | .error e => .failure state_code e

/-- The pre-sort accumulator: documents of all successful targets,
concatenated in target order. -/
def collectedDocs (searchFn : String → Except String SearchResponse)
    (codes : List String) : List Doc :=
  codes.flatMap (successDocs searchFn)

/-- Sum of `results_count` over the success summaries (failures contribute
zero). -/
def successCountSum : List SearchSummary → Nat
  | [] => 0
  | .success _ _ rc _ :: rest => rc + successCountSum rest
  | .failure _ _ :: rest => successCountSum rest

/-- The spec's per-entry clause description (§4.2): range values emit one
clause per present bound, scalars one quoted equality clause. -/
def specEntryClauses : String × FilterValue → List String
  | (field, .range gte lte gt lt) =>
      (match gte with | some v => [field ++ " ge " ++ v] | none => []) ++
      (match lte with | some v => [field ++ " le " ++ v] | none => []) ++
      (match gt with | some v => [field ++ " gt " ++ v] | none => []) ++
      (match lt with | some v => [field ++ " lt " ++ v] | none => [])
  | (field, .scalar v) => [field ++ " eq '" ++ v ++ "'"]

/-! ### Characterization lemmas for the fan-out loop and the stable sort -/

theorem foldStep_single (f : String → Except String SearchResponse)
    (ds : List Doc) (ss : List SearchSummary) (c : String) :
    foldStep f (ds, ss) c = (ds ++ successDocs f c, ss ++ [outcomeOf f c]) := by
  unfold foldStep successDocs outcomeOf
  cases f c <;> simp

theorem foldl_foldStep (f : String → Except String SearchResponse)
    (codes : List String) (ds : List Doc) (ss : List SearchSummary) :
    codes.foldl (foldStep f) (ds, ss)
      = (ds ++ collectedDocs f codes, ss ++ codes.map (outcomeOf f)) := by
  induction codes generalizing ds ss with
  | nil => simp [collectedDocs]
  | cons c rest ih =>
    rw [List.foldl_cons, foldStep_single, ih]
    simp [collectedDocs]

theorem length_insertByScore (d : Doc) (l : List Doc) :
    (insertByScore d l).length = l.length + 1 := by
  induction l with
  | nil => rfl
  | cons x xs ih =>
    unfold insertByScore
    split <;> simp [ih]

theorem mem_insertByScore (a d : Doc) (l : List Doc) :
    a ∈ insertByScore d l ↔ a = d ∨ a ∈ l := by
  induction l with
  | nil => simp [insertByScore]
  | cons x xs ih =>
    unfold insertByScore
    split
    · simp only [List.mem_cons, ih]
      tauto
    · simp

theorem pairwise_insertByScore (d : Doc) (l : List Doc)
    (h : l.Pairwise (fun a b => b.score ≤ a.score)) :
    (insertByScore d l).Pairwise (fun a b => b.score ≤ a.score) := by
  induction l with
  | nil => simp [insertByScore]
  | cons x xs ih =>
    rw [List.pairwise_cons] at h
    unfold insertByScore
    split
    · rename_i hlt
      rw [List.pairwise_cons]
      constructor
      · intro b hb
        rcases (mem_insertByScore b d xs).mp hb with hb | hb
        · exact hb ▸ le_of_lt hlt
        · exact h.1 b hb
      · exact ih h.2
    · rename_i hge
      push_neg at hge
      rw [List.pairwise_cons]
      refine ⟨?_, List.pairwise_cons.mpr h⟩
      intro b hb
      rcases List.mem_cons.mp hb with hb | hb
      · exact hb ▸ hge
      · exact le_trans (h.1 b hb) hge

theorem filter_insertByScore (s : ℚ) (d : Doc) (l : List Doc) :
    (insertByScore d l).filter (fun x => x.score == s)
      = if d.score == s then d :: l.filter (fun x => x.score == s)
        else l.filter (fun x => x.score == s) := by
  induction l with
  | nil =>
    by_cases hd : (d.score == s) = true <;> simp [insertByScore, hd]
  | cons x xs ih =>
    unfold insertByScore
    split
    · rename_i hlt
      rw [List.filter_cons, List.filter_cons, ih]
      by_cases hd : (d.score == s) = true
      · have hds : d.score = s := by simpa using hd
        have hxs : ¬ ((x.score == s) = true) := by
          simp only [beq_iff_eq]
          intro hx
          rw [hds, hx] at hlt
          exact lt_irrefl _ hlt
        simp [hd, hxs]
      · simp [hd]
    · rw [List.filter_cons]

theorem length_sortByScoreDesc (l : List Doc) :
    (sortByScoreDesc l).length = l.length := by
  induction l with
  | nil => rfl
  | cons x xs ih => simp [sortByScoreDesc, length_insertByScore, ih]

theorem mem_sortByScoreDesc (a : Doc) (l : List Doc) :
    a ∈ sortByScoreDesc l ↔ a ∈ l := by
  induction l with
  | nil => simp [sortByScoreDesc]
  | cons x xs ih => simp [sortByScoreDesc, mem_insertByScore, ih]

theorem pairwise_sortByScoreDesc (l : List Doc) :
    (sortByScoreDesc l).Pairwise (fun a b => b.score ≤ a.score) := by
  induction l with
  | nil => simp [sortByScoreDesc]
  | cons x xs ih => exact pairwise_insertByScore x _ ih

theorem filter_sortByScoreDesc (s : ℚ) (l : List Doc) :
    (sortByScoreDesc l).filter (fun x => x.score == s)
      = l.filter (fun x => x.score == s) := by
  induction l with
  | nil => rfl
  | cons x xs ih =>
    rw [sortByScoreDesc, filter_insertByScore, List.filter_cons, ih]

theorem search_multiple_states_summaries (cfg : Config)
    (f : String → Except String SearchResponse) (q : String)
    (codes : List String) (top : Option Nat) :
    (search_multiple_states cfg f q codes top).state_summaries
      = (effectiveTargets cfg codes).map (outcomeOf f) := by
  simp only [search_multiple_states]
  rw [foldl_foldStep]
  simp

theorem search_multiple_states_all_results (cfg : Config)
    (f : String → Except String SearchResponse) (q : String)
    (codes : List String) (top : Option Nat) :
    (search_multiple_states cfg f q codes top).all_results
      = sortByScoreDesc (collectedDocs f (effectiveTargets cfg codes)) := by
  simp only [search_multiple_states]
  rw [foldl_foldStep]
  simp

theorem search_multiple_states_total (cfg : Config)
    (f : String → Except String SearchResponse) (q : String)
    (codes : List String) (top : Option Nat) :
    (search_multiple_states cfg f q codes top).total_results
      = (collectedDocs f (effectiveTargets cfg codes)).length := by
  simp only [search_multiple_states]
  rw [foldl_foldStep]
  simp [length_sortByScoreDesc]

theorem search_multiple_states_top (cfg : Config)
    (f : String → Except String SearchResponse) (q : String)
    (codes : List String) (top : Option Nat) :
    (search_multiple_states cfg f q codes top).top_results
      = (search_multiple_states cfg f q codes top).all_results.take
          (effectiveTopK cfg top) := by
  simp only [search_multiple_states]

theorem effectiveTargets_of_ne_nil (cfg : Config) (codes : List String)
    (h : codes ≠ []) : effectiveTargets cfg codes = codes := by
  cases codes with
  | nil => exact absurd rfl h
  | cons c cs => rfl

theorem filterStep_eq (acc : List String) (fv : String × FilterValue) :
    filterStep acc fv = acc ++ specEntryClauses fv := by
  obtain ⟨field, v⟩ := fv
  cases v with
  | scalar w => rfl
  | range gte lte gt lt =>
    cases gte <;> cases lte <;> cases gt <;> cases lt <;>
      simp [filterStep, specEntryClauses]

theorem foldl_filterStep (fs : List (String × FilterValue))
    (acc : List String) :
    fs.foldl filterStep acc = acc ++ fs.flatMap specEntryClauses := by
  induction fs generalizing acc with
  | nil => simp
  | cons fv rest ih =>
    rw [List.foldl_cons, filterStep_eq, ih, List.flatMap_cons,
        List.append_assoc]

theorem build_filter_parts_eq (fs : List (String × FilterValue)) :
    build_filter_parts fs = fs.flatMap specEntryClauses := by
  rw [build_filter_parts, foldl_filterStep, List.nil_append]

/-! ### Concrete instances for the spec's example scenarios -/

/-- A two-target configuration (`ia`, `in`) with the default cap 5. -/
def exCfg : Config :=
  { states := [("ia", ⟨"Iowa", "ia-documents-index", "ia-documents"⟩),
               ("in", ⟨"Indiana", "in-documents-index", "in-documents"⟩)]
    top_k := 5 }

/-- Documents the `ia` target returns: scores 0.9 and 0.5. -/
def iaDocs : List Doc := [⟨"ia1", mkRat 9 10⟩, ⟨"ia2", mkRat 1 2⟩]

/-- Document the `in` target returns: score 0.9. -/
def inDocs : List Doc := [⟨"in1", mkRat 9 10⟩]

/-- An example Single-Index Search Client over `exCfg`: known codes succeed,
unknown codes fail with the ValueError message of `_get_search_client`
(lines 82-83). -/
def exSearch : String → Except String SearchResponse := fun c =>
  if c = "ia" then .ok ⟨"Iowa", iaDocs, iaDocs.length, some 2⟩
  else if c = "in" then .ok ⟨"Indiana", inDocs, inDocs.length, some 1⟩
  else .error ("Invalid state code: " ++ c ++ ". Valid codes: ia, in")

/-- The example client `exSearch` satisfies the invariant that `search`
guarantees on line 185:
the reported `results_count` of a successful response equals the length of
its `results` list. -/
theorem exSearch_results_count (c : String) (r : SearchResponse)
    (h : exSearch c = .ok r) : r.results_count = r.results.length := by
  unfold exSearch at h
  split at h
  · injection h with h
    subst h
    rfl
  · split at h
    · injection h with h
      subst h
      rfl
    · simp at h

/-! ### The claims -/

/-- C1: for a request with a non-empty target list, a target whose search
raises an error ends up as a `Failure` outcome carrying that (non-empty)
error description, every other successful target's documents still appear in
the merged result, every requested target still receives an outcome, and no
exception reaches the caller (the embedding of `search_multiple_states` is a
total function precisely because the per-target `try/except` catches every
exception and no statement outside it can raise). -/
theorem C1_failure_isolation (cfg : Config)
    (f : String → Except String SearchResponse) (q : String)
    (codes : List String) (top : Option Nat) (t e : String)
    (ht : t ∈ codes) (he : f t = .error e) (hne : e ≠ "") :
    (∃ d, SearchSummary.failure t d ∈
        (search_multiple_states cfg f q codes top).state_summaries ∧ d ≠ "") ∧
    (∀ u r, u ∈ codes → f u = .ok r → ∀ d ∈ r.results,
        d ∈ (search_multiple_states cfg f q codes top).all_results) ∧
    (search_multiple_states cfg f q codes top).state_summaries.length
      = codes.length := by
  have hnil : codes ≠ [] := by
    intro hc
    rw [hc] at ht
    exact absurd ht (List.not_mem_nil t)
  have heff := effectiveTargets_of_ne_nil cfg codes hnil
  refine ⟨⟨e, ?_, hne⟩, ?_, ?_⟩
  · rw [search_multiple_states_summaries, heff]
    refine List.mem_map.mpr ⟨t, ht, ?_⟩
    unfold outcomeOf
    rw [he]
  · intro u r hu hr d hd
    rw [search_multiple_states_all_results, heff, mem_sortByScoreDesc]
    refine List.mem_flatMap.mpr ⟨u, hu, ?_⟩
    unfold successDocs
    rw [hr]
    exact hd
  · rw [search_multiple_states_summaries, heff, List.length_map]

/-- C1 witness: the spec's `"zz"` scenario — the single unknown target yields
one `Failure` outcome with the `ValueError` message of `_get_search_client`,
an empty merged list, and a normal (non-raising) return. -/
theorem C1_failure_isolation_witness :
    (∃ d, SearchSummary.failure "zz" d ∈
        (search_multiple_states exCfg exSearch "q" ["zz"] none).state_summaries
        ∧ d ≠ "") ∧
    (search_multiple_states exCfg exSearch "q" ["zz"] none).state_summaries
      = [.failure "zz" "Invalid state code: zz. Valid codes: ia, in"] ∧
    (search_multiple_states exCfg exSearch "q" ["zz"] none).all_results
      = [] :=
  ⟨(C1_failure_isolation exCfg exSearch "q" ["zz"] none "zz"
      "Invalid state code: zz. Valid codes: ia, in"
      (by decide) rfl (by decide)).1,
   by decide, by decide⟩

/-- C2: the merged list is sorted by score descending, and the sort is
stable: for every score value, the sublist of documents carrying that score
equals (in order) the corresponding sublist of the pre-sort accumulator,
which concatenates successful targets' results in request order.  In
particular the spec's `["ia","in"]` scenario merges to
`[ia#1 (0.9), in#1 (0.9), ia#2 (0.5)]`. -/
theorem C2_sorted_stable :
    (∀ (cfg : Config) (f : String → Except String SearchResponse)
        (q : String) (codes : List String) (top : Option Nat),
      (search_multiple_states cfg f q codes top).all_results.Pairwise
          (fun a b => b.score ≤ a.score) ∧
      ∀ s : ℚ,
        (search_multiple_states cfg f q codes top).all_results.filter
            (fun d => d.score == s)
          = (collectedDocs f (effectiveTargets cfg codes)).filter
              (fun d => d.score == s)) ∧
    (search_multiple_states exCfg exSearch "q" ["ia", "in"] none).all_results
      = [⟨"ia1", mkRat 9 10⟩, ⟨"in1", mkRat 9 10⟩, ⟨"ia2", mkRat 1 2⟩] := by
  refine ⟨fun cfg f q codes top => ⟨?_, fun s => ?_⟩, by decide⟩
  · rw [search_multiple_states_all_results]
    exact pairwise_sortByScoreDesc _
  · rw [search_multiple_states_all_results, filter_sortByScoreDesc]

/-- C3: `top_results` never exceeds the effective cap, reaches it exactly
when enough documents were collected, and `total_results` reports the
pre-truncation count of collected documents. -/
theorem C3_truncation_and_total (cfg : Config)
    (f : String → Except String SearchResponse) (q : String)
    (codes : List String) (top : Option Nat) :
    (search_multiple_states cfg f q codes top).top_results.length
        ≤ effectiveTopK cfg top ∧
    (effectiveTopK cfg top
        ≤ (collectedDocs f (effectiveTargets cfg codes)).length →
      (search_multiple_states cfg f q codes top).top_results.length
        = effectiveTopK cfg top) ∧
    (search_multiple_states cfg f q codes top).total_results
      = (collectedDocs f (effectiveTargets cfg codes)).length := by
  have hlen :
      (search_multiple_states cfg f q codes top).all_results.length
        = (collectedDocs f (effectiveTargets cfg codes)).length := by
    rw [search_multiple_states_all_results, length_sortByScoreDesc]
  refine ⟨?_, ?_, search_multiple_states_total cfg f q codes top⟩
  · rw [search_multiple_states_top, List.length_take]
    exact min_le_left _ _
  · intro hc
    rw [search_multiple_states_top, List.length_take, hlen]
    exact min_eq_left hc

/-- C3 witness: the spec's cap-2 scenario — `top_results` is exactly the cap
(2) long, namely `[ia#1, in#1]`, while the aggregate total is reported as 3. -/
theorem C3_truncation_and_total_witness :
    (search_multiple_states exCfg exSearch "q" ["ia", "in"]
        (some 2)).top_results.length = effectiveTopK exCfg (some 2) ∧
    (search_multiple_states exCfg exSearch "q" ["ia", "in"]
        (some 2)).top_results
      = [⟨"ia1", mkRat 9 10⟩, ⟨"in1", mkRat 9 10⟩] ∧
    (search_multiple_states exCfg exSearch "q" ["ia", "in"]
        (some 2)).total_results = 3 :=
  ⟨(C3_truncation_and_total exCfg exSearch "q" ["ia", "in"] (some 2)).2.1
      (by decide),
   by decide, by decide⟩

/-- C4: for a non-empty target list, the outcome sequence carries exactly the
requested targets, in request order — one outcome per target, none dropped,
none duplicated. -/
theorem C4_one_outcome_per_target (cfg : Config)
    (f : String → Except String SearchResponse) (q : String)
    (codes : List String) (top : Option Nat) (h : codes ≠ []) :
    (search_multiple_states cfg f q codes top).state_summaries.map
        SearchSummary.stateOf = codes ∧
    (search_multiple_states cfg f q codes top).state_summaries.length
      = codes.length := by
  have hcomp : ∀ c, SearchSummary.stateOf (outcomeOf f c) = c := by
    intro c
    unfold outcomeOf
    cases f c <;> rfl
  have hcomp2 : SearchSummary.stateOf ∘ outcomeOf f = id := funext hcomp
  refine ⟨?_, ?_⟩
  · rw [search_multiple_states_summaries, effectiveTargets_of_ne_nil cfg codes h,
        List.map_map, hcomp2, List.map_id]
  · rw [search_multiple_states_summaries,
        effectiveTargets_of_ne_nil cfg codes h, List.length_map]

/-- C4 witness: three requested targets (one of them failing) receive exactly
three outcomes in request order. -/
theorem C4_one_outcome_per_target_witness :
    (search_multiple_states exCfg exSearch "q" ["ia", "zz", "in"]
        none).state_summaries.map SearchSummary.stateOf = ["ia", "zz", "in"] :=
  (C4_one_outcome_per_target exCfg exSearch "q" ["ia", "zz", "in"] none
      (by decide)).1

/-- C5 counterexample: the claim says an empty effective target set makes the
aggregation fail with a `ConfigurationError`; the code has no such error and
no failure path at all.  With an empty configured universe and an empty
requested list, the loop body never runs and `search_multiple_states`
returns a normal, empty result — the embedding is a total function into
`MultiStateResult` because every per-target exception is caught and no other
statement of the Python body can raise. -/
theorem C5_counterexample :
    search_multiple_states ⟨[], 5⟩ exSearch "q" [] none
      = { query := "q", states_searched := [], state_summaries := [],
          total_results := 0, top_results := [], all_results := [] } := by
  decide

/-- C5 (amended): when the effective target set after defaulting is empty,
the aggregation does not fail: it returns a normal result echoing the query,
with no outcomes, no documents, and a reported total of zero. -/
theorem C5_empty_universe_normal_result (cfg : Config)
    (f : String → Except String SearchResponse) (q : String)
    (top : Option Nat) (h : cfg.states = []) :
    search_multiple_states cfg f q [] top
      = { query := q, states_searched := [], state_summaries := [],
          total_results := 0, top_results := [], all_results := [] } := by
  simp [search_multiple_states, effectiveTargets, h, sortByScoreDesc]

/-- C5 witness: the amended claim at a concrete empty configuration. -/
theorem C5_empty_universe_normal_result_witness :
    search_multiple_states ⟨[], 7⟩ exSearch "medicaid" [] (some 3)
      = { query := "medicaid", states_searched := [], state_summaries := [],
          total_results := 0, top_results := [], all_results := [] } :=
  C5_empty_universe_normal_result ⟨[], 7⟩ exSearch "medicaid" (some 3) rfl

/-- C6: the filter builder emits, per entry, one clause per present range
bound (rendered ge/le/gt/lt) for range values — several bounds on one value
giving several clauses — and one quoted equality clause for scalar values,
all joined with the conjunction operator, in the mapping's order; embedded
quotes in a scalar are not escaped. -/
theorem C6_filter_clause_emission :
    (∀ fs : List (String × FilterValue),
      build_filter_string fs
        = String.intercalate " and " (fs.flatMap specEntryClauses)) ∧
    build_filter_string
        [("metadata_creation_date",
          .range (some "2024-01-01T00:00:00Z") (some "2024-12-31T00:00:00Z")
            none none)]
      = "metadata_creation_date ge 2024-01-01T00:00:00Z and metadata_creation_date le 2024-12-31T00:00:00Z" ∧
    build_filter_string [("document_type", .scalar "o'hare policy")]
      = "document_type eq 'o'hare policy'" := by
  refine ⟨fun fs => ?_, by decide, by decide⟩
  rw [build_filter_string, build_filter_parts_eq]

/-- C7: an empty (or absent) filter mapping produces no filter clause at all:
`search` passes `None` on, not a vacuously-true clause (and the builder
itself yields the empty string on an empty mapping). -/
theorem C7_empty_filter_unfiltered :
    filter_str_of none = none ∧
    filter_str_of (some []) = none ∧
    build_filter_string [] = "" :=
  ⟨rfl, rfl, rfl⟩

/-- C8: the filter builder is deterministic — equal input mappings give the
identical string — and order-preserving: the clause list of a concatenation
is the concatenation of the clause lists, so clauses appear in the mapping's
iteration order. -/
theorem C8_deterministic_order_preserving :
    (∀ fs₁ fs₂ : List (String × FilterValue), fs₁ = fs₂ →
        build_filter_string fs₁ = build_filter_string fs₂) ∧
    (∀ l₁ l₂ : List (String × FilterValue),
        build_filter_parts (l₁ ++ l₂)
          = build_filter_parts l₁ ++ build_filter_parts l₂) := by
  refine ⟨fun fs₁ fs₂ h => h ▸ rfl, fun l₁ l₂ => ?_⟩
  rw [build_filter_parts_eq, build_filter_parts_eq, build_filter_parts_eq,
      List.flatMap_append]

/-- C8 witness: determinism at a concrete mapping. -/
theorem C8_deterministic_order_preserving_witness :
    build_filter_string [("page_number", FilterValue.scalar "5")]
      = build_filter_string [("page_number", FilterValue.scalar "5")] :=
  C8_deterministic_order_preserving.1 _ _ rfl

/-- C9: given the invariant `search` guarantees on line 185 (a success
response reports `results_count = len(results)`), the aggregate
`total_results` equals the sum of `results_count` over the success outcomes;
failed targets contribute no documents. -/
theorem C9_total_eq_success_count_sum (cfg : Config)
    (f : String → Except String SearchResponse) (q : String)
    (codes : List String) (top : Option Nat)
    (hrc : ∀ c r, f c = .ok r → r.results_count = r.results.length) :
    (search_multiple_states cfg f q codes top).total_results
      = successCountSum
          (search_multiple_states cfg f q codes top).state_summaries := by
  rw [search_multiple_states_total, search_multiple_states_summaries]
  generalize effectiveTargets cfg codes = ec
  induction ec with
  | nil => rfl
  | cons c rest ih =>
    simp only [collectedDocs, List.flatMap_cons, List.length_append,
      List.map_cons]
    cases hfc : f c with
    | ok r =>
      simp only [outcomeOf, successDocs, hfc, successCountSum]
      rw [hrc c r hfc]
      simp only [collectedDocs] at ih
      rw [ih]
    | error e =>
      simp only [outcomeOf, successDocs, hfc, successCountSum]
      simp only [collectedDocs] at ih
      rw [ih]
      simp

/-- C9 witness: two successes (2 and 1 documents) and one failure sum to the
reported total of 3. -/
theorem C9_total_eq_success_count_sum_witness :
    (search_multiple_states exCfg exSearch "q" ["ia", "zz", "in"]
        none).total_results
      = successCountSum
          (search_multiple_states exCfg exSearch "q" ["ia", "zz", "in"]
            none).state_summaries :=
  C9_total_eq_success_count_sum exCfg exSearch "q" ["ia", "zz", "in"] none
    exSearch_results_count

/-- C10: the response exposes both the truncated and the untruncated merged
list; `top_results` is exactly the length-`min(cap, total)` prefix of
`all_results`, so both are in the same sorted order. -/
theorem C10_top_results_prefix (cfg : Config)
    (f : String → Except String SearchResponse) (q : String)
    (codes : List String) (top : Option Nat) :
    (search_multiple_states cfg f q codes top).top_results
        = (search_multiple_states cfg f q codes top).all_results.take
            (effectiveTopK cfg top) ∧
    (search_multiple_states cfg f q codes top).top_results.length
        = min (effectiveTopK cfg top)
            (search_multiple_states cfg f q codes top).total_results ∧
    List.IsPrefix (search_multiple_states cfg f q codes top).top_results
        (search_multiple_states cfg f q codes top).all_results := by
  have htot :
      (search_multiple_states cfg f q codes top).total_results
        = (search_multiple_states cfg f q codes top).all_results.length := by
    rw [search_multiple_states_total, search_multiple_states_all_results,
        length_sortByScoreDesc]
  refine ⟨search_multiple_states_top cfg f q codes top, ?_, ?_⟩
  · rw [search_multiple_states_top, List.length_take, htot]
  · rw [search_multiple_states_top]
    exact List.take_prefix _ _

end Guru
